import Mathlib

/-!
Verification of the Marlin mixing-extruder configuration commands
(`src/Marlin/src/gcode/feature/mixing/M163-M165.cpp`) and of the mixing
engine they drive, against the natural-language specification.

The G-code wrappers `M163`, `M164`, `M165` and `M165_report` are embedded
from the source file.  The mixer object itself (`set_collector`,
`normalize`, `refresh_collector` and the step distributor) is not part of
the excerpt, so those operations are modelled from the specification, as
indicated in their doc comments.

Real numbers of the specification are modelled as rationals.  `StepperCount`
(`N`) and `ToolCount` (`M`) are the two compile-time constants.
-/

set_option maxRecDepth 8000

/-- State of the mixing engine: the collector scratch buffer (one raw weight
per stepper), the virtual tool table (one ratio row per virtual tool), and
the active virtual tool index (`selected_vtool` in Marlin). -/
@[ext]
structure MixerState (N M : ℕ) where
  collector : Fin N → ℚ
  toolTable : Fin M → Fin N → ℚ
  activeTool : Fin M

namespace MixerState

variable {N M : ℕ}

/-- Modelled from the spec: `set_weight(index, value)` (`Mixer::set_collector`
in the source, whose body is outside the excerpt).  An index in `[0,N)`
stores the value in the collector; an out-of-range index (negative included)
is silently ignored.  The value is stored as given. -/
def set_collector (s : MixerState N M) (idx : ℤ) (v : ℚ) : MixerState N M :=
  if h : 0 ≤ idx ∧ idx < (N : ℤ) then
    { s with collector := Function.update s.collector ⟨idx.toNat, by omega⟩ v }
  else s

/-- Sum of the collector weights, used by the normalizer. -/
def csum (s : MixerState N M) : ℚ := ∑ i, s.collector i

/-- Modelled from the spec: `commit(toolIndex)` (`Mixer::normalize` in the
source, whose body is outside the excerpt).  If the collector sum exceeds the
small epsilon, the target row becomes `weight[i] / sum`; otherwise the target
row is left unchanged. -/
def normalize (ε : ℚ) (s : MixerState N M) (t : Fin M) : MixerState N M :=
  if ε < csum s then
    { s with toolTable := Function.update s.toolTable t (fun i => s.collector i / csum s) }
  else s

/-- Modelled from the spec: the Reporting Adapter's percentages
(`Mixer::refresh_collector` in the source, whose body is outside the
excerpt).  The call `mixer.refresh_collector(100.0, i)` in `M165_report`,
followed by reads of `mixer.collector[]`, stages the percentages
`row(t)[i] * proportion` of tool `t` into the collector buffer. -/
def refresh_collector (proportion : ℚ) (t : Fin M) (s : MixerState N M) : MixerState N M :=
  { s with collector := fun i => s.toolTable t i * proportion }

end MixerState

open MixerState

/-- Embedding of `GcodeSuite::M163` from the source.  `sOpt`/`pOpt` are the
optional `S`/`P` parameters; `parser.intval('S')` defaults to `0` and
`parser.floatval('P')` defaults to `0` when the letter is absent.  The guard
is the source's signed comparison `mix_index < MIXING_STEPPERS`. -/
def M163 {N M : ℕ} (sOpt : Option ℤ) (pOpt : Option ℚ) (s : MixerState N M) :
    MixerState N M :=
  let mix_index : ℤ := sOpt.getD 0
  if mix_index < (N : ℤ) then s.set_collector mix_index (pOpt.getD 0) else s

/-- Embedding of `GcodeSuite::M164` from the source.  With more than one
virtual tool, `tool_index = parser.intval('S', -1)`; a non-negative index is
range-checked and committed, while a negative one (the sentinel for an
omitted `S`) commits to the active tool.  With a single virtual tool the
index is the constant `0`. -/
def M164 {N M : ℕ} (ε : ℚ) (sOpt : Option ℤ) (s : MixerState N M) : MixerState N M :=
  if 1 < M then
    let tool_index : ℤ := sOpt.getD (-1)
    if h0 : 0 ≤ tool_index then
      if hM : tool_index < (M : ℤ) then s.normalize ε ⟨tool_index.toNat, by omega⟩ else s
    else s.normalize ε s.activeTool
  else s.normalize ε ⟨0, s.activeTool.pos⟩

/-- One conditional collector update per stepper index, as performed by the
loops of `GcodeSuite::M165`: index `i` is updated to `u i` when `u i` is
present and left alone otherwise. -/
def foldUpd {N M : ℕ} (u : Fin N → Option ℚ) (l : List (Fin N)) (s : MixerState N M) :
    MixerState N M :=
  l.foldl (fun st i =>
    match u i with
    | some v => st.set_collector (i : ℤ) v
    | none => st) s

/-- Mix factors present in an `M165` command, one optional value per stepper:
`params i` is the value of the `i`-th factor letter (`A`, `B`, `C`, `D`,
`H`, `I`, `J`, `K` positionally) when that letter is present. -/
def clearMask {N : ℕ} (params : Fin N → Option ℚ) : Fin N → Option ℚ :=
  fun i => if (params i).isSome then none else some 0

/-- Embedding of the `mix_bits` test of `GcodeSuite::M165`: true when at
least one factor letter is present. -/
def mixBits {N : ℕ} (params : Fin N → Option ℚ) : Bool :=
  (List.finRange N).any fun i => (params i).isSome

/-- Percentages of one report line, in stepper order, rendered at one
decimal place (`p_float_t(collector[i], 1)`), modelled as integer tenths. -/
def reportLine {N M : ℕ} (s : MixerState N M) : List ℤ :=
  (List.finRange N).map fun i => round (10 * s.collector i)

/-- Loop body of `GcodeSuite::M165_report`: stage tool `t`'s percentages
into the collector via `refresh_collector(100.0, t)` and append one line
labelled with the tool index (`"V<t>:"`) listing the staged collector
values at one decimal place. -/
def reportStep {N M : ℕ} (acc : List (ℕ × List ℤ) × MixerState N M) (t : Fin M) :
    List (ℕ × List ℤ) × MixerState N M :=
  let s' := refresh_collector 100 t acc.2
  (acc.1 ++ [((t : ℕ), reportLine s')], s')

/-- Embedding of `GcodeSuite::M165_report` from the source: one `reportStep`
per virtual tool, in order.  Returns the emitted lines and the final mixer
state. -/
def M165_report {N M : ℕ} (s : MixerState N M) : List (ℕ × List ℤ) × MixerState N M :=
  (List.finRange M).foldl reportStep ([], s)

/-- Embedding of `GcodeSuite::M165` from the source: set the collector from
the present factor letters; if at least one letter is present, clear the
absent ones to `0` and normalize into the active virtual tool; if none is
present, leave the mix alone.  The `R` flag then triggers `M165_report`. -/
def M165 {N M : ℕ} (ε : ℚ) (params : Fin N → Option ℚ) (rFlag : Bool)
    (s : MixerState N M) : MixerState N M × List (ℕ × List ℤ) :=
  let s1 := foldUpd params (List.finRange N) s
  let s2 :=
    if mixBits params then
      let s1' := foldUpd (clearMask params) (List.finRange N) s1
      s1'.normalize ε s1'.activeTool
    else s1
  if rFlag then ((M165_report s2).2, (M165_report s2).1) else (s2, [])

/-- Concrete two-stepper, two-tool state used by several witnesses and
counterexamples: raw collector weights `[1, 3]`, both tool rows
`[1/2, 1/2]`, active tool `0`. -/
def mixSample : MixerState 2 2 :=
  { collector := ![1, 3]
    toolTable := fun _ => ![1/2, 1/2]
    activeTool := 0 }

/-- Concrete all-zero collector state for the C5 witness. -/
def mixZero : MixerState 2 2 :=
  { collector := ![0, 0]
    toolTable := fun _ => ![1/2, 1/2]
    activeTool := 0 }

/-- Concrete `M165` parameters with both factor letters present. -/
def paramsBoth : Fin 2 → Option ℚ := ![some 1, some 3]

/-- Concrete `M165` parameters with no factor letter present. -/
def paramsNone : Fin 2 → Option ℚ := fun _ => none

/-- Modelled from the spec: post-request accumulator values of the Step
Distributor (§4.3, step 2): every accumulator gains its ratio. -/
def distAcc {n : ℕ} (r acc : Fin (n + 1) → ℚ) : Fin (n + 1) → ℚ :=
  fun i => acc i + r i

/-- Modelled from the spec: the Step Distributor's selection (§4.3, step 3):
the index with the largest accumulator, ties broken by lowest index.  The
fold keeps the current best index with its value and replaces it only on a
strictly larger value. -/
def distPick {n : ℕ} (f : Fin (n + 1) → ℚ) : Fin (n + 1) :=
  ((List.finRange (n + 1)).foldl (fun best i => if f i > best.2 then (i, f i) else best)
    (0, f 0)).1

/-- Modelled from the spec: one step request of the Step Distributor (§4.3):
add the ratios, select the largest accumulator (lowest index on ties),
credit the selected stepper with the step and debit its accumulator by one
full step. -/
def distStep {n : ℕ} (r : Fin (n + 1) → ℚ) (st : (Fin (n + 1) → ℕ) × (Fin (n + 1) → ℚ)) :
    (Fin (n + 1) → ℕ) × (Fin (n + 1) → ℚ) :=
  let acc' := distAcc r st.2
  let j := distPick acc'
  (Function.update st.1 j (st.1 j + 1), Function.update acc' j (acc' j - 1))

/-- Modelled from the spec: `k` step requests of the Step Distributor from
the armed state (all accumulators zero, no steps delivered), returning the
per-stepper delivered counts and the accumulators. -/
def distRun {n : ℕ} (r : Fin (n + 1) → ℚ) : ℕ → (Fin (n + 1) → ℕ) × (Fin (n + 1) → ℚ)
  | 0 => (fun _ => 0, fun _ => 0)
  | k + 1 => distStep r (distRun r k)

/-- Integer weights (scaled by `10⁵`) of the eight-stepper ratio vector used
to refute the `± 1` claim. -/
def cexWts (i : Fin 8) : ℤ :=
  match i with
  | 0 => 45834
  | 1 => 45834
  | 2 => 6500
  | 3 => 1430
  | 4 => 315
  | 5 => 69
  | 6 => 15
  | 7 => 3

/-- Eight-stepper ratio vector `cexWts i / 10⁵` (sums to one) on which the
Step Distributor's count drifts two steps away from `round(r[i]*K)`. -/
def cexRatios : Fin 8 → ℚ := fun i => (cexWts i : ℚ) / 100000

/-- Integer shadow of the distributor state on the `cexRatios` run: the
eight accumulators scaled by `10⁵` (so they stay integers) and the running
step count of stepper `1`. -/
structure DistShadow where
  a0 : ℤ
  a1 : ℤ
  a2 : ℤ
  a3 : ℤ
  a4 : ℤ
  a5 : ℤ
  a6 : ℤ
  a7 : ℤ
  c1 : ℕ
deriving DecidableEq

/-- Accumulator fields of the shadow as a function on `Fin 8`. -/
def DistShadow.acc (s : DistShadow) (i : Fin 8) : ℤ :=
  match i with
  | 0 => s.a0
  | 1 => s.a1
  | 2 => s.a2
  | 3 => s.a3
  | 4 => s.a4
  | 5 => s.a5
  | 6 => s.a6
  | 7 => s.a7

/-- Scaled post-request accumulator values of the shadow. -/
def DistShadow.bval (s : DistShadow) (i : Fin 8) : ℤ :=
  s.acc i + cexWts i

/-- Shadow form of `distPick` on the scaled accumulators: same fold, same
tie-breaking, over the same index list. -/
def DistShadow.pick (s : DistShadow) : Fin 8 :=
  ((List.finRange 8).foldl
    (fun best i => if s.bval i > best.2 then (i, s.bval i) else best)
    (0, s.bval 0)).1

/-- Integer shadow of one distributor step on the `cexRatios` run. -/
def DistShadow.step (s : DistShadow) : DistShadow :=
  let j := s.pick
  { a0 := (if j = 0 then s.bval 0 - 100000 else s.bval 0)
    a1 := (if j = 1 then s.bval 1 - 100000 else s.bval 1)
    a2 := (if j = 2 then s.bval 2 - 100000 else s.bval 2)
    a3 := (if j = 3 then s.bval 3 - 100000 else s.bval 3)
    a4 := (if j = 4 then s.bval 4 - 100000 else s.bval 4)
    a5 := (if j = 5 then s.bval 5 - 100000 else s.bval 5)
    a6 := (if j = 6 then s.bval 6 - 100000 else s.bval 6)
    a7 := (if j = 7 then s.bval 7 - 100000 else s.bval 7)
    c1 := (if j = 1 then s.c1 + 1 else s.c1) }

/-- Iterated integer shadow steps. -/
def DistShadow.run : ℕ → DistShadow → DistShadow
  | 0, s => s
  | k + 1, s => DistShadow.run k s.step

/-- Armed shadow state: all accumulators zero, no steps counted. -/
def DistShadow.start : DistShadow := ⟨0, 0, 0, 0, 0, 0, 0, 0, 0⟩

/-- Two-stepper fifty-fifty ratio vector, used by the C1 witness. -/
def halfRatios : Fin 2 → ℚ := ![1/2, 1/2]

namespace MixerState

variable {N M : ℕ}

lemma set_collector_toolTable (s : MixerState N M) (idx : ℤ) (v : ℚ) :
    (s.set_collector idx v).toolTable = s.toolTable := by
  unfold set_collector
  split <;> rfl

lemma set_collector_activeTool (s : MixerState N M) (idx : ℤ) (v : ℚ) :
    (s.set_collector idx v).activeTool = s.activeTool := by
  unfold set_collector
  split <;> rfl

lemma set_collector_fin (s : MixerState N M) (i : Fin N) (v : ℚ) :
    s.set_collector (i : ℤ) v = { s with collector := Function.update s.collector i v } := by
  unfold set_collector
  rw [dif_pos ⟨Int.natCast_nonneg _, by exact_mod_cast i.isLt⟩]
  congr

lemma normalize_toolTable_of_le (ε : ℚ) (s : MixerState N M) (t : Fin M)
    (h : csum s ≤ ε) : s.normalize ε t = s := by
  unfold normalize
  rw [if_neg (not_lt.mpr h)]

end MixerState

/-- C3: an `M163` command whose `S` index is outside `[0, N)` — negative
indices included — is silently ignored: the mixer state (collector and tool
table alike) is unchanged. -/
theorem C3_theorem {N M : ℕ} (idx : ℤ) (pOpt : Option ℚ) (s : MixerState N M)
    (h : idx < 0 ∨ (N : ℤ) ≤ idx) : M163 (some idx) pOpt s = s := by
  show (if idx < (N : ℤ) then s.set_collector idx (pOpt.getD 0) else s) = s
  rcases h with h | h
  · rw [if_pos (lt_of_lt_of_le h (Int.natCast_nonneg N))]
    unfold MixerState.set_collector
    rw [dif_neg (by omega)]
  · rw [if_neg (not_lt.mpr h)]

/-- Witness for C3 at the concrete inputs `S = -1` and `S = 7`. -/
theorem C3_witness :
    M163 (some (-1)) (some 5) mixSample = mixSample ∧
      M163 (some 7) (some 5) mixSample = mixSample :=
  ⟨C3_theorem (-1) (some 5) mixSample (Or.inl (by norm_num)),
    C3_theorem 7 (some 5) mixSample (Or.inr (by norm_num))⟩

/-- C5: committing a collector whose sum is at most epsilon leaves the
engine state — in particular the targeted tool row — unchanged, so no
all-zero row and no division by zero can result. -/
theorem C5_theorem {N M : ℕ} (ε : ℚ) (s : MixerState N M) (t : Fin M)
    (h : MixerState.csum s ≤ ε) : s.normalize ε t = s :=
  MixerState.normalize_toolTable_of_le ε s t h

/-- Witness for C5: a zero collector sum (below epsilon `1/10000`) commits
to no change. -/
theorem C5_witness :
    MixerState.csum mixZero ≤ 1/10000 ∧ mixZero.normalize (1/10000) 1 = mixZero := by
  have h : MixerState.csum mixZero ≤ 1/10000 := by
    simp [MixerState.csum, mixZero, Fin.sum_univ_two]
  exact ⟨h, C5_theorem (1/10000) mixZero 1 h⟩

/-- C9: an `M163` command with `S` omitted defaults the index to `0` and
stores the `P` value into stepper 0's collector slot. -/
theorem C9_theorem {N M : ℕ} (hN : 0 < N) (p : ℚ) (s : MixerState N M) :
    M163 none (some p) s =
      { s with collector := Function.update s.collector ⟨0, hN⟩ p } := by
  show (if (0 : ℤ) < (N : ℤ) then s.set_collector 0 p else s) = _
  rw [if_pos (by exact_mod_cast hN)]
  unfold MixerState.set_collector
  rw [dif_pos (by omega)]
  rfl

/-- Witness for C9 at the concrete state `mixSample` and `P = 7`. -/
theorem C9_witness :
    (0 : ℕ) < 2 ∧
      M163 none (some 7) mixSample =
        { mixSample with collector := Function.update mixSample.collector 0 7 } :=
  ⟨Nat.zero_lt_two, C9_theorem Nat.zero_lt_two 7 mixSample⟩

/-- C10: with a single virtual tool (`MIXING_VIRTUAL_TOOLS = 1`), `M164`
ignores the `S` parameter entirely and always commits the collector to tool
`0`, whatever `S` holds. -/
theorem C10_theorem {N : ℕ} (ε : ℚ) (sOpt : Option ℤ) (s : MixerState N 1) :
    M164 ε sOpt s = s.normalize ε ⟨0, Nat.one_pos⟩ := by
  unfold M164
  rw [if_neg (lt_irrefl 1)]

lemma foldUpd_toolTable {N M : ℕ} (u : Fin N → Option ℚ) (l : List (Fin N))
    (s : MixerState N M) : (foldUpd u l s).toolTable = s.toolTable := by
  induction l generalizing s with
  | nil => rfl
  | cons i l ih =>
    show (foldUpd u l _).toolTable = _
    rw [ih]
    cases h : u i <;> simp [h, MixerState.set_collector_toolTable]

lemma foldUpd_activeTool {N M : ℕ} (u : Fin N → Option ℚ) (l : List (Fin N))
    (s : MixerState N M) : (foldUpd u l s).activeTool = s.activeTool := by
  induction l generalizing s with
  | nil => rfl
  | cons i l ih =>
    show (foldUpd u l _).activeTool = _
    rw [ih]
    cases h : u i <;> simp [h, MixerState.set_collector_activeTool]

lemma foldUpd_collector {N M : ℕ} (u : Fin N → Option ℚ) (l : List (Fin N))
    (hl : l.Nodup) (s : MixerState N M) (j : Fin N) :
    (foldUpd u l s).collector j =
      if j ∈ l then (u j).getD (s.collector j) else s.collector j := by
  induction l generalizing s with
  | nil => simp [foldUpd]
  | cons i l ih =>
    rcases List.nodup_cons.mp hl with ⟨hi, hl'⟩
    have step : (foldUpd u (i :: l) s) =
        foldUpd u l (match u i with
          | some v => s.set_collector (i : ℤ) v
          | none => s) := rfl
    rw [step, ih hl']
    by_cases hji : j = i
    · subst hji
      have hjl : j ∉ l := hi
      simp only [hjl, if_false, List.mem_cons, true_or, if_true]
      cases h : u j with
      | none => simp
      | some v =>
        show (s.set_collector ((j : ℕ) : ℤ) v).collector j = (some v).getD (s.collector j)
        rw [MixerState.set_collector_fin]
        simp [Function.update_same]
    · have hmem : (j ∈ i :: l) ↔ (j ∈ l) := by
        simp [List.mem_cons, hji]
      rw [if_congr hmem rfl rfl]
      have hcol : (match u i with
          | some v => s.set_collector (i : ℤ) v
          | none => s).collector j = s.collector j := by
        cases h : u i with
        | none => rfl
        | some v =>
          show (s.set_collector ((i : ℕ) : ℤ) v).collector j = s.collector j
          rw [MixerState.set_collector_fin]
          simp [Function.update_noteq hji]
      rw [hcol]

lemma foldUpd_full_collector {N M : ℕ} (u : Fin N → Option ℚ) (s : MixerState N M)
    (j : Fin N) :
    (foldUpd u (List.finRange N) s).collector j = (u j).getD (s.collector j) := by
  rw [foldUpd_collector u _ (List.nodup_finRange N) s j,
    if_pos (List.mem_finRange j)]

lemma mixBits_false_iff {N : ℕ} (params : Fin N → Option ℚ) :
    mixBits params = false ↔ ∀ i, params i = none := by
  unfold mixBits
  rw [List.any_eq_false]
  constructor
  · intro h i
    have hni := h i (List.mem_finRange i)
    have hforall : ∀ x, ¬ params i = some x := by
      simpa [Option.isSome_iff_exists] using hni
    cases hp : params i with
    | none => rfl
    | some v => exact (hforall v hp).elim
  · intro h i _
    simp [h i]

lemma foldUpd_none {N M : ℕ} (u : Fin N → Option ℚ) (hu : ∀ i, u i = none)
    (s : MixerState N M) : foldUpd u (List.finRange N) s = s := by
  ext1
  · funext j
    rw [foldUpd_full_collector, hu j]
    rfl
  · rw [foldUpd_toolTable]
  · rw [foldUpd_activeTool]

lemma refresh_refresh {N M : ℕ} (p q : ℚ) (t₁ t₂ : Fin M) (s : MixerState N M) :
    refresh_collector p t₂ (refresh_collector q t₁ s) = refresh_collector p t₂ s := rfl

lemma reportFold_toolTable {N M : ℕ} (l : List (Fin M)) (A : List (ℕ × List ℤ))
    (s : MixerState N M) : ((l.foldl reportStep (A, s)).2).toolTable = s.toolTable := by
  induction l generalizing A s with
  | nil => rfl
  | cons t ts ih =>
    show ((ts.foldl reportStep (reportStep (A, s) t)).2).toolTable = _
    rw [ih]
    rfl

lemma reportFold_activeTool {N M : ℕ} (l : List (Fin M)) (A : List (ℕ × List ℤ))
    (s : MixerState N M) : ((l.foldl reportStep (A, s)).2).activeTool = s.activeTool := by
  induction l generalizing A s with
  | nil => rfl
  | cons t ts ih =>
    show ((ts.foldl reportStep (reportStep (A, s) t)).2).activeTool = _
    rw [ih]
    rfl

lemma reportFold_snd {N M : ℕ} (l : List (Fin M)) (hl : l ≠ []) (A : List (ℕ × List ℤ))
    (s : MixerState N M) :
    (l.foldl reportStep (A, s)).2 = refresh_collector 100 (l.getLast hl) s := by
  induction l generalizing A s with
  | nil => exact absurd rfl hl
  | cons t ts ih =>
    by_cases hts : ts = []
    · subst hts
      rfl
    · show (ts.foldl reportStep (reportStep (A, s) t)).2 = _
      have hstep : reportStep (A, s) t =
          ((A ++ [((t : ℕ), reportLine (refresh_collector 100 t s))]),
            refresh_collector 100 t s) := rfl
      rw [hstep, ih hts, refresh_refresh, List.getLast_cons hts]

lemma reportFold_lines {N M : ℕ} (l : List (Fin M)) (A : List (ℕ × List ℤ))
    (s : MixerState N M) :
    (l.foldl reportStep (A, s)).1 =
      A ++ l.map (fun (t : Fin M) => ((t : ℕ),
        (List.finRange N).map fun i => round (10 * (s.toolTable t i * 100)))) := by
  induction l generalizing A s with
  | nil => simp
  | cons t ts ih =>
    show (ts.foldl reportStep (reportStep (A, s) t)).1 = _
    have hstep : reportStep (A, s) t =
        ((A ++ [((t : ℕ), reportLine (refresh_collector 100 t s))]),
          refresh_collector 100 t s) := rfl
    rw [hstep, ih]
    have hline : reportLine (refresh_collector 100 t s) =
        (List.finRange N).map fun i => round (10 * (s.toolTable t i * 100)) := rfl
    have htt : (refresh_collector 100 t s).toolTable = s.toolTable := rfl
    rw [hline, htt, List.map_cons, List.append_assoc]
    rfl

/-- C4 counterexample: producing the percentage report is not a pure read —
at the concrete state `mixSample` it overwrites the collector buffer (entry
`0` changes from the raw weight `1` to the staged percentage `50`). -/
theorem C4_counterexample :
    (M165_report mixSample).2.collector 0 ≠ mixSample.collector 0 := by
  have hfr : List.finRange 2 = [0, 1] := by decide
  have h2 : (M165_report mixSample).2 = refresh_collector 100 (1 : Fin 2) mixSample := by
    show ((List.finRange 2).foldl reportStep ([], mixSample)).2 = _
    rw [hfr, reportFold_snd [0, 1] (by simp) [] mixSample]
    rfl
  rw [h2]
  show mixSample.toolTable 1 0 * 100 ≠ mixSample.collector 0
  norm_num [mixSample]

/-- C4 as amended: reporting mutates no `ToolTable` row and leaves the
active tool unchanged, but it does overwrite the `Collector` buffer, which
afterwards holds the percentages of the last reported tool (`M - 1`). -/
theorem C4_theorem {N M : ℕ} (s : MixerState N M) :
    (M165_report s).2.toolTable = s.toolTable ∧
      (M165_report s).2.activeTool = s.activeTool ∧
      (M165_report s).2.collector =
        fun k => s.toolTable ⟨M - 1, Nat.sub_lt s.activeTool.pos Nat.one_pos⟩ k * 100 := by
  obtain ⟨m, rfl⟩ : ∃ m, M = m + 1 := ⟨M - 1, by have := s.activeTool.pos; omega⟩
  refine ⟨reportFold_toolTable _ _ _, reportFold_activeTool _ _ _, ?_⟩
  have hne : List.finRange (m + 1) ≠ [] := by
    simp [List.finRange_eq_nil]
  have h2 : (M165_report s).2 =
      refresh_collector 100 ((List.finRange (m + 1)).getLast hne) s :=
    reportFold_snd _ hne [] s
  have hlast : (List.finRange (m + 1)).getLast hne = Fin.last m := by
    have hconcat := List.finRange_succ_last m
    rw [List.getLast_congr _ _ hconcat, List.getLast_concat]
  rw [h2, hlast]
  rfl

/-- C8: the `R`-flag report emits one line per virtual tool for all `M`
tools in index order, labelled by the tool index and carrying that tool's
ratios times 100 at one decimal place per stepper in stepper order; the
emitted lines do not depend on which tool is active. -/
theorem C8_theorem {N M : ℕ} (s : MixerState N M) :
    (M165_report s).1 =
      (List.finRange M).map (fun (t : Fin M) => ((t : ℕ),
        (List.finRange N).map fun i => round (10 * (s.toolTable t i * 100)))) ∧
      ∀ a' : Fin M, (M165_report { s with activeTool := a' }).1 = (M165_report s).1 := by
  constructor
  · have h := reportFold_lines (List.finRange M) [] s
    simpa using h
  · intro a'
    have h1 := reportFold_lines (List.finRange M) ([] : List (ℕ × List ℤ))
      ({ s with activeTool := a' })
    have h2 := reportFold_lines (List.finRange M) ([] : List (ℕ × List ℤ)) s
    show ((List.finRange M).foldl reportStep ([], _)).1 =
      ((List.finRange M).foldl reportStep ([], s)).1
    rw [h1, h2]

/-- C6: an `M165` command with at least one factor letter present sets every
absent letter's collector weight to `0` and commits (normalizes) the
resulting mix to the active virtual tool. -/
theorem C6_theorem {N M : ℕ} (ε : ℚ) (params : Fin N → Option ℚ) (s : MixerState N M)
    (h : mixBits params = true) :
    (M165 ε params false s).1 =
      MixerState.normalize ε { s with collector := fun i => (params i).getD 0 }
        s.activeTool := by
  have hs1' : foldUpd (clearMask params) (List.finRange N)
      (foldUpd params (List.finRange N) s) =
      { s with collector := fun i => (params i).getD 0 } := by
    ext1
    · funext j
      rw [foldUpd_full_collector, foldUpd_full_collector]
      cases hp : params j with
      | some v => simp [clearMask, hp]
      | none => simp [clearMask, hp]
    · rw [foldUpd_toolTable, foldUpd_toolTable]
    · rw [foldUpd_activeTool, foldUpd_activeTool]
  simp only [M165, h, if_true]
  rw [hs1']
  rfl

/-- C7: an `M165` command with no factor letter present commits nothing:
without the `R` flag the state is untouched, and in every case (report or
not) each tool row keeps its previously committed mix. -/
theorem C7_theorem {N M : ℕ} (ε : ℚ) (params : Fin N → Option ℚ) (s : MixerState N M)
    (h : mixBits params = false) :
    (M165 ε params false s).1 = s ∧
      ∀ rF : Bool, (M165 ε params rF s).1.toolTable = s.toolTable := by
  have hall : ∀ i, params i = none := (mixBits_false_iff params).mp h
  have hfold : foldUpd params (List.finRange N) s = s := foldUpd_none params hall s
  constructor
  · simp only [M165, h, Bool.false_eq_true, if_false]
    exact hfold
  · intro rF
    cases rF
    · simp only [M165, h, Bool.false_eq_true, if_false]
      rw [hfold]
    · simp only [M165, h, Bool.false_eq_true, if_false]
      rw [hfold]
      exact reportFold_toolTable _ _ _

/-- Witness for C6 at the concrete parameters `A1 B3` on `mixSample`. -/
theorem C6_witness :
    mixBits paramsBoth = true ∧
      (M165 (1/10000) paramsBoth false mixSample).1 =
        MixerState.normalize (1/10000)
          { mixSample with collector := fun i => (paramsBoth i).getD 0 }
          mixSample.activeTool :=
  ⟨by decide, C6_theorem (1/10000) paramsBoth mixSample (by decide)⟩

/-- Witness for C7 at the concrete empty parameter set on `mixSample`. -/
theorem C7_witness :
    mixBits paramsNone = false ∧
      ((M165 (1/10000) paramsNone false mixSample).1 = mixSample ∧
        ∀ rF : Bool, (M165 (1/10000) paramsNone rF mixSample).1.toolTable =
          mixSample.toolTable) :=
  ⟨by decide, C7_theorem (1/10000) paramsNone mixSample (by decide)⟩

/-- C2 counterexample: an `M164` with the explicit out-of-range tool index
`S = -5` is not skipped — it commits the collector to the active tool and
mutates row `0` (entry `0` changes from `1/2` to `1/4`). -/
theorem C2_counterexample :
    (M164 (1/10000) (some (-5)) mixSample).toolTable 0 0 ≠ mixSample.toolTable 0 0 := by
  have h1 : M164 (1/10000) (some (-5)) mixSample =
      mixSample.normalize (1/10000) mixSample.activeTool := by
    show (if 1 < 2 then _ else _) = _
    rw [if_pos one_lt_two]
    exact dif_neg (by norm_num)
  rw [h1]
  have hcs : MixerState.csum mixSample = 4 := by
    simp [MixerState.csum, mixSample, Fin.sum_univ_two]
    norm_num
  unfold MixerState.normalize
  rw [hcs, if_pos (by norm_num)]
  show Function.update mixSample.toolTable mixSample.activeTool _ 0 0 ≠ _
  have hat : mixSample.activeTool = 0 := rfl
  rw [hat, Function.update_same]
  simp [mixSample]

/-- C2 as amended: when more than one virtual tool is configured, an `M164`
with an explicit tool index at or above `M` is silently skipped, but an
explicit negative tool index is indistinguishable from an omitted `S` (the
parser's sentinel is `-1`) and therefore commits to the active tool. -/
theorem C2_theorem {N M : ℕ} (ε : ℚ) (idx : ℤ) (s : MixerState N M) (hM : 1 < M) :
    ((M : ℤ) ≤ idx → M164 ε (some idx) s = s) ∧
      (idx < 0 → M164 ε (some idx) s = s.normalize ε s.activeTool) := by
  constructor
  · intro hidx
    have h0 : (0 : ℤ) ≤ idx := le_trans (Int.natCast_nonneg M) hidx
    simp only [M164, if_pos hM, Option.getD_some]
    rw [dif_pos h0, dif_neg (not_lt.mpr hidx)]
  · intro hidx
    simp only [M164, if_pos hM, Option.getD_some]
    rw [dif_neg (not_le.mpr hidx)]

/-- Witness for the amended C2 at the concrete indices `S = 7` (skipped) and
`S = -1` (commits to the active tool) on `mixSample`. -/
theorem C2_witness :
    M164 (1/10000) (some 7) mixSample = mixSample ∧
      M164 (1/10000) (some (-1)) mixSample =
        mixSample.normalize (1/10000) mixSample.activeTool :=
  ⟨(C2_theorem (1/10000) 7 mixSample one_lt_two).1 (by norm_num),
    (C2_theorem (1/10000) (-1) mixSample one_lt_two).2 (by norm_num)⟩

lemma distPick_foldl_inv {n : ℕ} (f : Fin (n + 1) → ℚ) (l : List (Fin (n + 1)))
    (p : Fin (n + 1) × ℚ) (hp : p.2 = f p.1) :
    (l.foldl (fun best i => if f i > best.2 then (i, f i) else best) p).2 =
        f (l.foldl (fun best i => if f i > best.2 then (i, f i) else best) p).1 ∧
      p.2 ≤ (l.foldl (fun best i => if f i > best.2 then (i, f i) else best) p).2 ∧
      ∀ i ∈ l, f i ≤ (l.foldl (fun best i => if f i > best.2 then (i, f i) else best) p).2 := by
  induction l generalizing p with
  | nil => exact ⟨hp, le_refl _, by simp⟩
  | cons i l ih =>
    simp only [List.foldl_cons]
    by_cases hfi : f i > p.2
    · rw [if_pos hfi]
      obtain ⟨h1, h2, h3⟩ := ih (i, f i) rfl
      refine ⟨h1, le_trans (le_of_lt hfi) h2, ?_⟩
      intro j hj
      rcases List.mem_cons.mp hj with hj | hj
      · subst hj
        exact h2
      · exact h3 j hj
    · rw [if_neg hfi]
      obtain ⟨h1, h2, h3⟩ := ih p hp
      refine ⟨h1, h2, ?_⟩
      intro j hj
      rcases List.mem_cons.mp hj with hj | hj
      · subst hj
        exact le_trans (le_of_not_lt hfi) h2
      · exact h3 j hj

lemma distPick_max {n : ℕ} (f : Fin (n + 1) → ℚ) (i : Fin (n + 1)) :
    f i ≤ f (distPick f) := by
  obtain ⟨h1, _, h3⟩ := distPick_foldl_inv f (List.finRange (n + 1)) (0, f 0) rfl
  have := h3 i (List.mem_finRange i)
  rw [h1] at this
  exact this

lemma distRun_acc_eq {n : ℕ} (r : Fin (n + 1) → ℚ) (k : ℕ) (i : Fin (n + 1)) :
    (distRun r k).2 i = r i * k - ((distRun r k).1 i : ℚ) := by
  induction k generalizing i with
  | zero => simp [distRun]
  | succ k ih =>
    show (distStep r (distRun r k)).2 i = r i * (k + 1 : ℕ) - ((distStep r (distRun r k)).1 i : ℚ)
    set j := distPick (distAcc r (distRun r k).2) with hj
    show Function.update (distAcc r (distRun r k).2) j (distAcc r (distRun r k).2 j - 1) i =
      r i * (k + 1 : ℕ) - (Function.update (distRun r k).1 j ((distRun r k).1 j + 1) i : ℚ)
    by_cases hij : i = j
    · subst hij
      rw [Function.update_same, Function.update_same]
      have := ih j
      unfold distAcc
      push_cast
      rw [this]
      ring
    · rw [Function.update_noteq hij, Function.update_noteq hij]
      have := ih i
      unfold distAcc
      rw [this]
      push_cast
      ring

lemma distRun_counts_sum {n : ℕ} (r : Fin (n + 1) → ℚ) (k : ℕ) :
    ∑ i, (distRun r k).1 i = k := by
  induction k with
  | zero => simp [distRun]
  | succ k ih =>
    show ∑ i, (distStep r (distRun r k)).1 i = k + 1
    set j := distPick (distAcc r (distRun r k).2) with hj
    show ∑ i, Function.update (distRun r k).1 j ((distRun r k).1 j + 1) i = k + 1
    rw [Finset.sum_update_of_mem (Finset.mem_univ j), Finset.sdiff_singleton_eq_erase]
    have hsplit : ∑ x ∈ Finset.univ.erase j, (distRun r k).1 x =
        (∑ i, (distRun r k).1 i) - (distRun r k).1 j := by
      rw [← Finset.add_sum_erase Finset.univ _ (Finset.mem_univ j)]
      omega
    rw [hsplit, ih]
    have hle : (distRun r k).1 j ≤ k := by
      conv_rhs => rw [← ih]
      exact Finset.single_le_sum (fun i _ => Nat.zero_le _) (Finset.mem_univ j)
    omega

lemma distRun_acc_sum {n : ℕ} (r : Fin (n + 1) → ℚ) (hr1 : ∑ i, r i = 1) (k : ℕ) :
    ∑ i, (distRun r k).2 i = 0 := by
  have h1 : ∀ i, (distRun r k).2 i = r i * k - ((distRun r k).1 i : ℚ) :=
    distRun_acc_eq r k
  calc ∑ i, (distRun r k).2 i
      = ∑ i, (r i * k - ((distRun r k).1 i : ℚ)) := Finset.sum_congr rfl fun i _ => h1 i
    _ = (∑ i, r i) * k - ∑ i, ((distRun r k).1 i : ℚ) := by
        rw [Finset.sum_sub_distrib, Finset.sum_mul]
    _ = k - ((∑ i, (distRun r k).1 i : ℕ) : ℚ) := by
        rw [hr1, one_mul]
        push_cast
        ring
    _ = 0 := by
        rw [distRun_counts_sum]
        ring

lemma distAcc_sum {n : ℕ} (r : Fin (n + 1) → ℚ) (hr1 : ∑ i, r i = 1) (k : ℕ) :
    ∑ i, distAcc r (distRun r k).2 i = 1 := by
  unfold distAcc
  rw [Finset.sum_add_distrib, distRun_acc_sum r hr1 k, hr1]
  norm_num

lemma distRun_acc_lower {n : ℕ} (r : Fin (n + 1) → ℚ) (hr0 : ∀ i, 0 ≤ r i)
    (hr1 : ∑ i, r i = 1) (k : ℕ) (i : Fin (n + 1)) :
    1 / ((n : ℚ) + 1) - 1 ≤ (distRun r k).2 i := by
  have hpos : (0 : ℚ) < (n : ℚ) + 1 := by positivity
  induction k generalizing i with
  | zero =>
    have h1 : (1 : ℚ) / ((n : ℚ) + 1) ≤ 1 := by
      rw [div_le_one hpos]
      have : (0 : ℚ) ≤ (n : ℚ) := by positivity
      linarith
    show 1 / ((n : ℚ) + 1) - 1 ≤ 0
    linarith
  | succ k ih =>
    show 1 / ((n : ℚ) + 1) - 1 ≤ (distStep r (distRun r k)).2 i
    set j := distPick (distAcc r (distRun r k).2) with hjdef
    show 1 / ((n : ℚ) + 1) - 1 ≤
      Function.update (distAcc r (distRun r k).2) j (distAcc r (distRun r k).2 j - 1) i
    have hmax : ∀ i2, distAcc r (distRun r k).2 i2 ≤ distAcc r (distRun r k).2 j :=
      fun i2 => distPick_max _ i2
    have havg : 1 ≤ ((n : ℚ) + 1) * distAcc r (distRun r k).2 j := by
      calc (1 : ℚ) = ∑ i2, distAcc r (distRun r k).2 i2 := (distAcc_sum r hr1 k).symm
        _ ≤ ∑ _i2 : Fin (n + 1), distAcc r (distRun r k).2 j :=
            Finset.sum_le_sum (fun i2 _ => hmax i2)
        _ = ((n : ℚ) + 1) * distAcc r (distRun r k).2 j := by
            rw [Finset.sum_const, Finset.card_univ, Fintype.card_fin, nsmul_eq_mul]
            push_cast
            ring
    have hjge : 1 / ((n : ℚ) + 1) ≤ distAcc r (distRun r k).2 j := by
      rw [div_le_iff₀ hpos]
      linarith
    by_cases hij : i = j
    · subst hij
      rw [Function.update_same]
      linarith
    · rw [Function.update_noteq hij]
      have hstep : (distRun r k).2 i ≤ distAcc r (distRun r k).2 i := by
        unfold distAcc
        linarith [hr0 i]
      linarith [ih i]

lemma distRun_acc_upper {n : ℕ} (r : Fin (n + 1) → ℚ) (hr0 : ∀ i, 0 ≤ r i)
    (hr1 : ∑ i, r i = 1) (k : ℕ) (i : Fin (n + 1)) :
    (distRun r k).2 i ≤ (n : ℚ) * (1 - 1 / ((n : ℚ) + 1)) := by
  have hsum := distRun_acc_sum r hr1 k
  have hsplit : (distRun r k).2 i + ∑ i2 ∈ Finset.univ.erase i, (distRun r k).2 i2 = 0 := by
    rw [Finset.add_sum_erase Finset.univ _ (Finset.mem_univ i)]
    exact hsum
  have hbound : ((n : ℚ)) * (1 / ((n : ℚ) + 1) - 1) ≤
      ∑ i2 ∈ Finset.univ.erase i, (distRun r k).2 i2 := by
    have hcard : (Finset.univ.erase i).card = n := by
      rw [Finset.card_erase_of_mem (Finset.mem_univ i), Finset.card_univ, Fintype.card_fin]
      omega
    calc ((n : ℚ)) * (1 / ((n : ℚ) + 1) - 1)
        = ∑ _i2 ∈ Finset.univ.erase i, (1 / ((n : ℚ) + 1) - 1) := by
          rw [Finset.sum_const, hcard, nsmul_eq_mul]
      _ ≤ ∑ i2 ∈ Finset.univ.erase i, (distRun r k).2 i2 :=
          Finset.sum_le_sum (fun i2 _ => distRun_acc_lower r hr0 hr1 k i2)
  have : (distRun r k).2 i = - ∑ i2 ∈ Finset.univ.erase i, (distRun r k).2 i2 := by
    linarith
  rw [this]
  have hgoal : -((n : ℚ) * (1 / ((n : ℚ) + 1) - 1)) = (n : ℚ) * (1 - 1 / ((n : ℚ) + 1)) := by
    ring
  linarith

lemma distB_nonneg (n : ℕ) : 0 ≤ 1 - 1 / ((n : ℚ) + 1) := by
  have hpos : (0 : ℚ) < (n : ℚ) + 1 := by positivity
  have h1 : (1 : ℚ) / ((n : ℚ) + 1) ≤ 1 := by
    rw [div_le_one hpos]
    have : (0 : ℚ) ≤ (n : ℚ) := by positivity
    linarith
  linarith

lemma distB_le_mul (n : ℕ) : 1 - 1 / ((n : ℚ) + 1) ≤ (n : ℚ) * (1 - 1 / ((n : ℚ) + 1)) := by
  rcases Nat.eq_zero_or_pos n with hn | hn
  · subst hn
    norm_num
  · have hn1 : (1 : ℚ) ≤ (n : ℚ) := by exact_mod_cast hn
    nlinarith [distB_nonneg n]

/-- C1 as amended: over `n + 1` steppers the Step Distributor delivers
exactly one step per request (the counts sum to `K`), with error bounded
independently of the run length: each count differs from `r i * K` by at
most `n * (1 - 1/(n+1)) = n²/(n+1)`, never exceeds `round(r i * K) + 1`,
and for at most three steppers stays within `round(r i * K) ± 1`.  (The
uniform `± 1` radius of the original claim fails for eight steppers — see
the counterexample.) -/
theorem C1_theorem {n : ℕ} (r : Fin (n + 1) → ℚ) (k : ℕ)
    (hr0 : ∀ i, 0 ≤ r i) (hr1 : ∑ i, r i = 1) :
    (∑ i, (distRun r k).1 i = k) ∧
      (∀ i, |((distRun r k).1 i : ℚ) - r i * k| ≤ (n : ℚ) * (1 - 1 / ((n : ℚ) + 1))) ∧
      (∀ i, ((distRun r k).1 i : ℤ) ≤ round (r i * (k : ℚ)) + 1) ∧
      (n + 1 ≤ 3 → ∀ i, |((distRun r k).1 i : ℤ) - round (r i * (k : ℚ))| ≤ 1) := by
  have hpos : (0 : ℚ) < (n : ℚ) + 1 := by positivity
  have htpos : (0 : ℚ) < 1 / ((n : ℚ) + 1) := by positivity
  have key : ∀ i, ((distRun r k).1 i : ℚ) - r i * k = -((distRun r k).2 i) := by
    intro i
    have := distRun_acc_eq r k i
    linarith
  have hlow : ∀ i, 1 / ((n : ℚ) + 1) - 1 ≤ (distRun r k).2 i :=
    fun i => distRun_acc_lower r hr0 hr1 k i
  have hup : ∀ i, (distRun r k).2 i ≤ (n : ℚ) * (1 - 1 / ((n : ℚ) + 1)) :=
    fun i => distRun_acc_upper r hr0 hr1 k i
  have habs : ∀ i, |((distRun r k).1 i : ℚ) - r i * k| ≤ (n : ℚ) * (1 - 1 / ((n : ℚ) + 1)) := by
    intro i
    rw [abs_le]
    constructor
    · rw [key i]
      linarith [hup i]
    · rw [key i]
      have := distB_le_mul n
      linarith [hlow i]
  refine ⟨distRun_counts_sum r k, habs, ?_, ?_⟩
  · intro i
    have hround := abs_sub_round (r i * (k : ℚ))
    have h1 : ((distRun r k).1 i : ℚ) - r i * k ≤ 1 - 1 / ((n : ℚ) + 1) := by
      rw [key i]
      linarith [hlow i]
    have h2 : (((distRun r k).1 i : ℤ) : ℚ) - ((round (r i * (k : ℚ)) : ℤ) : ℚ) < 2 := by
      push_cast
      rw [abs_le] at hround
      linarith [h1, hround.1, hround.2]
    have h3 : ((distRun r k).1 i : ℤ) - round (r i * (k : ℚ)) < 2 := by exact_mod_cast h2
    omega
  · intro hn3 i
    have hn3q : (n : ℚ) + 1 ≤ 3 := by exact_mod_cast hn3
    have hnq : (n : ℚ) ≤ 2 := by linarith
    have hthird : (1 : ℚ) / 3 ≤ 1 / ((n : ℚ) + 1) := by
      rw [div_le_div_iff₀ (by norm_num) hpos]
      linarith
    have hB23 : 1 - 1 / ((n : ℚ) + 1) ≤ 2 / 3 := by linarith
    have hnB : (n : ℚ) * (1 - 1 / ((n : ℚ) + 1)) ≤ 4 / 3 := by
      have h0 := distB_nonneg n
      nlinarith
    have hround := abs_sub_round (r i * (k : ℚ))
    have habs2 : |(((distRun r k).1 i : ℤ) : ℚ) - ((round (r i * (k : ℚ)) : ℤ) : ℚ)| < 2 := by
      have ha := habs i
      have trig : |(((distRun r k).1 i : ℤ) : ℚ) - ((round (r i * (k : ℚ)) : ℤ) : ℚ)| ≤
          |((distRun r k).1 i : ℚ) - r i * k| + |r i * (k : ℚ) - round (r i * (k : ℚ))| := by
        push_cast
        have := abs_sub_abs_le_abs_sub (((distRun r k).1 i : ℚ)) (r i * (k : ℚ))
        calc |((distRun r k).1 i : ℚ) - (round (r i * (k : ℚ)) : ℚ)|
            = |(((distRun r k).1 i : ℚ) - r i * k) + (r i * k - (round (r i * (k : ℚ)) : ℚ))| := by
              ring_nf
          _ ≤ _ := abs_add _ _
      calc |(((distRun r k).1 i : ℤ) : ℚ) - ((round (r i * (k : ℚ)) : ℤ) : ℚ)|
          ≤ |((distRun r k).1 i : ℚ) - r i * k| + |r i * (k : ℚ) - round (r i * (k : ℚ))| := trig
        _ ≤ 4 / 3 + 1 / 2 := by
            have := habs i
            gcongr <;> linarith
        _ < 2 := by norm_num
    have h4 : |((distRun r k).1 i : ℤ) - round (r i * (k : ℚ))| < 2 := by
      have : ((|((distRun r k).1 i : ℤ) - round (r i * (k : ℚ))| : ℤ) : ℚ) < 2 := by
        push_cast
        exact habs2
      exact_mod_cast this
    omega

/-- Witness for the amended C1: the fifty-fifty two-stepper vector over ten
requests. -/
theorem C1_witness :
    (∀ i, 0 ≤ halfRatios i) ∧ (∑ i, halfRatios i = 1) ∧
      ((∑ i, (distRun halfRatios 10).1 i = 10) ∧
        (∀ i, |((distRun halfRatios 10).1 i : ℚ) - halfRatios i * 10| ≤
          (1 : ℚ) * (1 - 1 / ((1 : ℚ) + 1))) ∧
        (∀ i, ((distRun halfRatios 10).1 i : ℤ) ≤ round (halfRatios i * (10 : ℚ)) + 1) ∧
        (1 + 1 ≤ 3 → ∀ i, |((distRun halfRatios 10).1 i : ℤ) -
          round (halfRatios i * (10 : ℚ))| ≤ 1)) := by
  have h0 : ∀ i, 0 ≤ halfRatios i := by
    intro i
    fin_cases i
    · norm_num [halfRatios]
    · norm_num [halfRatios]
  have h1 : ∑ i, halfRatios i = 1 := by
    rw [Fin.sum_univ_two]
    norm_num [halfRatios]
  exact ⟨h0, h1, by exact_mod_cast C1_theorem halfRatios 10 h0 h1⟩

lemma pick_fold_bridge (f : Fin 8 → ℚ) (g : Fin 8 → ℤ)
    (hfg : ∀ i, f i = (g i : ℚ) / 100000) (l : List (Fin 8)) (p : Fin 8 × ℚ)
    (q : Fin 8 × ℤ) (hpq1 : p.1 = q.1) (hpq2 : p.2 = (q.2 : ℚ) / 100000) :
    (l.foldl (fun best i => if f i > best.2 then (i, f i) else best) p).1 =
      (l.foldl (fun best i => if g i > best.2 then (i, g i) else best) q).1 := by
  induction l generalizing p q with
  | nil => exact hpq1
  | cons i l ih =>
    simp only [List.foldl_cons]
    have hiff : f i > p.2 ↔ g i > q.2 := by
      rw [hfg i, hpq2]
      rw [gt_iff_lt, div_lt_div_iff_of_pos_right (by norm_num : (0 : ℚ) < 100000)]
      exact_mod_cast Iff.rfl
    by_cases hc : g i > q.2
    · rw [if_pos (hiff.mpr hc), if_pos hc]
      exact ih (i, f i) (i, g i) rfl (hfg i)
    · rw [if_neg (fun hx => hc (hiff.mp hx)), if_neg hc]
      exact ih p q hpq1 hpq2

lemma shadow_bval_bridge (st : (Fin 8 → ℕ) × (Fin 8 → ℚ)) (sh : DistShadow)
    (h : ∀ i, st.2 i = (sh.acc i : ℚ) / 100000) (i : Fin 8) :
    distAcc cexRatios st.2 i = (sh.bval i : ℚ) / 100000 := by
  unfold distAcc DistShadow.bval cexRatios
  rw [h i]
  push_cast
  ring

lemma pick_bridge (st : (Fin 8 → ℕ) × (Fin 8 → ℚ)) (sh : DistShadow)
    (h : ∀ i, st.2 i = (sh.acc i : ℚ) / 100000) :
    distPick (distAcc cexRatios st.2) = sh.pick := by
  unfold distPick DistShadow.pick
  exact pick_fold_bridge (distAcc cexRatios st.2) sh.bval
    (shadow_bval_bridge st sh h) (List.finRange 8) _ _ rfl
    (shadow_bval_bridge st sh h 0)

lemma shadow_step_acc (sh : DistShadow) (i : Fin 8) :
    (sh.step).acc i = if sh.pick = i then sh.bval i - 100000 else sh.bval i := by
  fin_cases i <;> rfl

lemma shadow_step_c1 (sh : DistShadow) :
    (sh.step).c1 = if sh.pick = 1 then sh.c1 + 1 else sh.c1 := rfl

lemma step_bridge (st : (Fin 8 → ℕ) × (Fin 8 → ℚ)) (sh : DistShadow)
    (h1 : ∀ i, st.2 i = (sh.acc i : ℚ) / 100000) (h2 : st.1 1 = sh.c1) :
    (∀ i, (distStep cexRatios st).2 i = ((sh.step).acc i : ℚ) / 100000) ∧
      (distStep cexRatios st).1 1 = (sh.step).c1 := by
  have hj : distPick (distAcc cexRatios st.2) = sh.pick := pick_bridge st sh h1
  constructor
  · intro i
    show Function.update (distAcc cexRatios st.2) (distPick (distAcc cexRatios st.2))
      (distAcc cexRatios st.2 (distPick (distAcc cexRatios st.2)) - 1) i = _
    rw [hj, shadow_step_acc sh i]
    by_cases hij : sh.pick = i
    · rw [hij, Function.update_same, if_pos rfl, shadow_bval_bridge st sh h1]
      push_cast
      ring
    · rw [Function.update_noteq (fun hx => hij hx.symm), if_neg hij,
        shadow_bval_bridge st sh h1]
  · show Function.update st.1 (distPick (distAcc cexRatios st.2))
      (st.1 (distPick (distAcc cexRatios st.2)) + 1) 1 = _
    rw [hj, shadow_step_c1 sh]
    by_cases hp1 : sh.pick = 1
    · rw [hp1, Function.update_same, if_pos rfl, h2]
    · rw [Function.update_noteq (fun hx => hp1 hx.symm), if_neg hp1, h2]

lemma DistShadow.run_step_comm (k : ℕ) (s : DistShadow) :
    DistShadow.run k s.step = (DistShadow.run k s).step := by
  induction k generalizing s with
  | zero => rfl
  | succ k ih =>
    show DistShadow.run k s.step.step = (DistShadow.run k s.step).step
    exact ih s.step

lemma DistShadow.run_add (a b : ℕ) (s : DistShadow) :
    DistShadow.run (a + b) s = DistShadow.run b (DistShadow.run a s) := by
  induction a generalizing s with
  | zero =>
    rw [Nat.zero_add]
    rfl
  | succ a ih =>
    rw [Nat.succ_add]
    show DistShadow.run (a + b) s.step = DistShadow.run b (DistShadow.run a s.step)
    exact ih s.step

lemma run_bridge (k : ℕ) :
    (∀ i, (distRun cexRatios k).2 i =
        ((DistShadow.run k DistShadow.start).acc i : ℚ) / 100000) ∧
      (distRun cexRatios k).1 1 = (DistShadow.run k DistShadow.start).c1 := by
  induction k with
  | zero =>
    constructor
    · intro i
      show (0 : ℚ) = (DistShadow.start.acc i : ℚ) / 100000
      fin_cases i <;> norm_num [DistShadow.start, DistShadow.acc]
    · rfl
  | succ k ih =>
    have hcomm : DistShadow.run (k + 1) DistShadow.start =
        (DistShadow.run k DistShadow.start).step :=
      DistShadow.run_step_comm k DistShadow.start
    rw [hcomm]
    exact step_bridge (distRun cexRatios k) (DistShadow.run k DistShadow.start) ih.1 ih.2

lemma cexChunk1 : DistShadow.run 100 DistShadow.start = ⟨-16600, 83400, -50000, 43000, -68500, 6900, 1500, 300, 45⟩ := by decide

lemma cexChunk2 : DistShadow.run 200 DistShadow.start = ⟨-33200, 66800, 0, -14000, -37000, 13800, 3000, 600, 91⟩ := by
  rw [show (200 : ℕ) = 100 + 100 from rfl, DistShadow.run_add, cexChunk1]
  decide

lemma cexChunk3 : DistShadow.run 300 DistShadow.start = ⟨-49800, 50200, 50000, -71000, -5500, 20700, 4500, 900, 137⟩ := by
  rw [show (300 : ℕ) = 200 + 100 from rfl, DistShadow.run_add, cexChunk2]
  decide

lemma cexChunk4 : DistShadow.run 400 DistShadow.start = ⟨33600, 33600, 0, -28000, 26000, -72400, 6000, 1200, 183⟩ := by
  rw [show (400 : ℕ) = 300 + 100 from rfl, DistShadow.run_add, cexChunk3]
  decide

lemma cexChunk5 : DistShadow.run 500 DistShadow.start = ⟨17000, 17000, 50000, 15000, -42500, -65500, 7500, 1500, 229⟩ := by
  rw [show (500 : ℕ) = 400 + 100 from rfl, DistShadow.run_add, cexChunk4]
  decide

lemma cexChunk6 : DistShadow.run 600 DistShadow.start = ⟨400, 100400, 0, -42000, -11000, -58600, 9000, 1800, 274⟩ := by
  rw [show (600 : ℕ) = 500 + 100 from rfl, DistShadow.run_add, cexChunk5]
  decide

lemma cexChunk7 : DistShadow.run 700 DistShadow.start = ⟨-16200, 83800, -50000, 1000, 20500, -51700, 10500, 2100, 320⟩ := by
  rw [show (700 : ℕ) = 600 + 100 from rfl, DistShadow.run_add, cexChunk6]
  decide

lemma cexChunk8 : DistShadow.run 800 DistShadow.start = ⟨-32800, 67200, 0, 44000, -48000, -44800, 12000, 2400, 366⟩ := by
  rw [show (800 : ℕ) = 700 + 100 from rfl, DistShadow.run_add, cexChunk7]
  decide

lemma cexChunk9 : DistShadow.run 900 DistShadow.start = ⟨-49400, 50600, 50000, -13000, -16500, -37900, 13500, 2700, 412⟩ := by
  rw [show (900 : ℕ) = 800 + 100 from rfl, DistShadow.run_add, cexChunk8]
  decide

lemma cexChunk10 : DistShadow.run 1000 DistShadow.start = ⟨-66000, 34000, 0, 30000, 15000, -31000, 15000, 3000, 458⟩ := by
  rw [show (1000 : ℕ) = 900 + 100 from rfl, DistShadow.run_add, cexChunk9]
  decide

lemma cexChunk11 : DistShadow.run 1100 DistShadow.start = ⟨17400, 17400, 50000, -27000, -53500, -24100, 16500, 3300, 504⟩ := by
  rw [show (1100 : ℕ) = 1000 + 100 from rfl, DistShadow.run_add, cexChunk10]
  decide

lemma cexChunk12 : DistShadow.run 1200 DistShadow.start = ⟨800, 800, 0, 16000, -22000, -17200, 18000, 3600, 550⟩ := by
  rw [show (1200 : ℕ) = 1100 + 100 from rfl, DistShadow.run_add, cexChunk11]
  decide

lemma cexChunk13 : DistShadow.run 1300 DistShadow.start = ⟨-15800, 84200, -50000, -41000, 9500, -10300, 19500, 3900, 595⟩ := by
  rw [show (1300 : ℕ) = 1200 + 100 from rfl, DistShadow.run_add, cexChunk12]
  decide

lemma cexChunk14 : DistShadow.run 1400 DistShadow.start = ⟨-32400, 67600, 0, 2000, -59000, -3400, 21000, 4200, 641⟩ := by
  rw [show (1400 : ℕ) = 1300 + 100 from rfl, DistShadow.run_add, cexChunk13]
  decide

lemma cexChunk15 : DistShadow.run 1500 DistShadow.start = ⟨-49000, 51000, 50000, -55000, -27500, 3500, 22500, 4500, 687⟩ := by
  rw [show (1500 : ℕ) = 1400 + 100 from rfl, DistShadow.run_add, cexChunk14]
  decide

lemma cexChunk16 : DistShadow.run 1600 DistShadow.start = ⟨-65600, 34400, 0, -12000, 4000, 10400, 24000, 4800, 733⟩ := by
  rw [show (1600 : ℕ) = 1500 + 100 from rfl, DistShadow.run_add, cexChunk15]
  decide

lemma cexChunk17 : DistShadow.run 1700 DistShadow.start = ⟨17800, 17800, -50000, 31000, 35500, 17300, -74500, 5100, 779⟩ := by
  rw [show (1700 : ℕ) = 1600 + 100 from rfl, DistShadow.run_add, cexChunk16]
  decide

lemma cexChunk18 : DistShadow.run 1800 DistShadow.start = ⟨1200, 101200, 0, -26000, -33000, 24200, -73000, 5400, 824⟩ := by
  rw [show (1800 : ℕ) = 1700 + 100 from rfl, DistShadow.run_add, cexChunk17]
  decide

lemma cexChunk19 : DistShadow.run 1900 DistShadow.start = ⟨-15400, 84600, -50000, 17000, -1500, 31100, -71500, 5700, 870⟩ := by
  rw [show (1900 : ℕ) = 1800 + 100 from rfl, DistShadow.run_add, cexChunk18]
  decide

lemma cexChunk20 : DistShadow.run 2000 DistShadow.start = ⟨-32000, 68000, 0, 60000, 30000, -62000, -70000, 6000, 916⟩ := by
  rw [show (2000 : ℕ) = 1900 + 100 from rfl, DistShadow.run_add, cexChunk19]
  decide

lemma cexChunk21 : DistShadow.run 2100 DistShadow.start = ⟨51400, 51400, 50000, 3000, -38500, -55100, -68500, 6300, 962⟩ := by
  rw [show (2100 : ℕ) = 2000 + 100 from rfl, DistShadow.run_add, cexChunk20]
  decide

lemma cexChunk22 : DistShadow.run 2200 DistShadow.start = ⟨34800, 34800, 0, 46000, -7000, -48200, -67000, 6600, 1008⟩ := by
  rw [show (2200 : ℕ) = 2100 + 100 from rfl, DistShadow.run_add, cexChunk21]
  decide

lemma cexChunk23 : DistShadow.run 2300 DistShadow.start = ⟨18200, 18200, 50000, -11000, 24500, -41300, -65500, 6900, 1054⟩ := by
  rw [show (2300 : ℕ) = 2200 + 100 from rfl, DistShadow.run_add, cexChunk22]
  decide

lemma cexChunk24 : DistShadow.run 2400 DistShadow.start = ⟨1600, 101600, 0, 32000, -44000, -34400, -64000, 7200, 1099⟩ := by
  rw [show (2400 : ℕ) = 2300 + 100 from rfl, DistShadow.run_add, cexChunk23]
  decide

lemma cexChunk25 : DistShadow.run 2500 DistShadow.start = ⟨-15000, 85000, 50000, -25000, -12500, -27500, -62500, 7500, 1145⟩ := by
  rw [show (2500 : ℕ) = 2400 + 100 from rfl, DistShadow.run_add, cexChunk24]
  decide

lemma cexChunk26 : DistShadow.run 2600 DistShadow.start = ⟨-31600, 68400, 0, 18000, 19000, -20600, -61000, 7800, 1191⟩ := by
  rw [show (2600 : ℕ) = 2500 + 100 from rfl, DistShadow.run_add, cexChunk25]
  decide

lemma cexChunk27 : DistShadow.run 2700 DistShadow.start = ⟨51800, 51800, 50000, -39000, -49500, -13700, -59500, 8100, 1237⟩ := by
  rw [show (2700 : ℕ) = 2600 + 100 from rfl, DistShadow.run_add, cexChunk26]
  decide

lemma cexChunk28 : DistShadow.run 2800 DistShadow.start = ⟨35200, 35200, 0, 4000, -18000, -6800, -58000, 8400, 1283⟩ := by
  rw [show (2800 : ℕ) = 2700 + 100 from rfl, DistShadow.run_add, cexChunk27]
  decide

lemma cexChunk29 : DistShadow.run 2900 DistShadow.start = ⟨18600, 18600, 50000, -53000, 13500, 100, -56500, 8700, 1329⟩ := by
  rw [show (2900 : ℕ) = 2800 + 100 from rfl, DistShadow.run_add, cexChunk28]
  decide

lemma cexChunk30 : DistShadow.run 3000 DistShadow.start = ⟨2000, 102000, 0, -10000, -55000, 7000, -55000, 9000, 1374⟩ := by
  rw [show (3000 : ℕ) = 2900 + 100 from rfl, DistShadow.run_add, cexChunk29]
  decide

lemma cexChunk31 : DistShadow.run 3100 DistShadow.start = ⟨-14600, 85400, -50000, 33000, -23500, 13900, -53500, 9300, 1420⟩ := by
  rw [show (3100 : ℕ) = 3000 + 100 from rfl, DistShadow.run_add, cexChunk30]
  decide

lemma cexChunk32 : DistShadow.run 3200 DistShadow.start = ⟨-31200, 68800, 0, -24000, 8000, 20800, -52000, 9600, 1466⟩ := by
  rw [show (3200 : ℕ) = 3100 + 100 from rfl, DistShadow.run_add, cexChunk31]
  decide

lemma cexChunk33 : DistShadow.run 3300 DistShadow.start = ⟨-47800, 52200, 50000, 19000, -60500, 27700, -50500, 9900, 1512⟩ := by
  rw [show (3300 : ℕ) = 3200 + 100 from rfl, DistShadow.run_add, cexChunk32]
  decide

lemma cexChunk34 : DistShadow.run 3400 DistShadow.start = ⟨35600, 35600, 0, -38000, -29000, 34600, -49000, 10200, 1558⟩ := by
  rw [show (3400 : ℕ) = 3300 + 100 from rfl, DistShadow.run_add, cexChunk33]
  decide

lemma cexChunk35 : DistShadow.run 3500 DistShadow.start = ⟨19000, 19000, 50000, 5000, 2500, -58500, -47500, 10500, 1604⟩ := by
  rw [show (3500 : ℕ) = 3400 + 100 from rfl, DistShadow.run_add, cexChunk34]
  decide

lemma cexChunk36 : DistShadow.run 3600 DistShadow.start = ⟨2400, 2400, 0, 48000, 34000, -51600, -46000, 10800, 1650⟩ := by
  rw [show (3600 : ℕ) = 3500 + 100 from rfl, DistShadow.run_add, cexChunk35]
  decide

lemma cexChunk37 : DistShadow.run 3700 DistShadow.start = ⟨-14200, 85800, 50000, -9000, -34500, -44700, -44500, 11100, 1695⟩ := by
  rw [show (3700 : ℕ) = 3600 + 100 from rfl, DistShadow.run_add, cexChunk36]
  decide

lemma cexChunk38 : DistShadow.run 3800 DistShadow.start = ⟨-30800, 69200, 0, 34000, -3000, -37800, -43000, 11400, 1741⟩ := by
  rw [show (3800 : ℕ) = 3700 + 100 from rfl, DistShadow.run_add, cexChunk37]
  decide

lemma cexChunk39 : DistShadow.run 3900 DistShadow.start = ⟨-47400, 52600, 50000, -23000, 28500, -30900, -41500, 11700, 1787⟩ := by
  rw [show (3900 : ℕ) = 3800 + 100 from rfl, DistShadow.run_add, cexChunk38]
  decide

lemma cexChunk40 : DistShadow.run 4000 DistShadow.start = ⟨36000, 36000, 0, 20000, -40000, -24000, -40000, 12000, 1833⟩ := by
  rw [show (4000 : ℕ) = 3900 + 100 from rfl, DistShadow.run_add, cexChunk39]
  decide

lemma cexChunk41 : DistShadow.run 4100 DistShadow.start = ⟨19400, 19400, 50000, -37000, -8500, -17100, -38500, 12300, 1879⟩ := by
  rw [show (4100 : ℕ) = 4000 + 100 from rfl, DistShadow.run_add, cexChunk40]
  decide

lemma cexChunk42 : DistShadow.run 4200 DistShadow.start = ⟨2800, 2800, 0, 6000, 23000, -10200, -37000, 12600, 1925⟩ := by
  rw [show (4200 : ℕ) = 4100 + 100 from rfl, DistShadow.run_add, cexChunk41]
  decide

lemma cexChunk43 : DistShadow.run 4300 DistShadow.start = ⟨-13800, 86200, 50000, -51000, -45500, -3300, -35500, 12900, 1970⟩ := by
  rw [show (4300 : ℕ) = 4200 + 100 from rfl, DistShadow.run_add, cexChunk42]
  decide

lemma cexChunk44 : DistShadow.run 4400 DistShadow.start = ⟨-30400, 69600, 0, -8000, -14000, 3600, -34000, 13200, 2016⟩ := by
  rw [show (4400 : ℕ) = 4300 + 100 from rfl, DistShadow.run_add, cexChunk43]
  decide

lemma cexChunk45 : DistShadow.run 4500 DistShadow.start = ⟨-47000, 53000, 50000, -65000, 17500, 10500, -32500, 13500, 2062⟩ := by
  rw [show (4500 : ℕ) = 4400 + 100 from rfl, DistShadow.run_add, cexChunk44]
  decide

lemma cexChunk46 : DistShadow.run 4600 DistShadow.start = ⟨36400, 36400, 0, -22000, -51000, 17400, -31000, 13800, 2108⟩ := by
  rw [show (4600 : ℕ) = 4500 + 100 from rfl, DistShadow.run_add, cexChunk45]
  decide

lemma cexChunk47 : DistShadow.run 4700 DistShadow.start = ⟨19800, 19800, -50000, 21000, -19500, 24300, -29500, 14100, 2154⟩ := by
  rw [show (4700 : ℕ) = 4600 + 100 from rfl, DistShadow.run_add, cexChunk46]
  decide

lemma cexChunk48 : DistShadow.run 4800 DistShadow.start = ⟨3200, 103200, 0, -36000, 12000, -68800, -28000, 14400, 2199⟩ := by
  rw [show (4800 : ℕ) = 4700 + 100 from rfl, DistShadow.run_add, cexChunk47]
  decide

lemma cexChunk49 : DistShadow.run 4900 DistShadow.start = ⟨-13400, 86600, -50000, 7000, 43500, -61900, -26500, 14700, 2245⟩ := by
  rw [show (4900 : ℕ) = 4800 + 100 from rfl, DistShadow.run_add, cexChunk48]
  decide

lemma cexChunk50 : DistShadow.run 5000 DistShadow.start = ⟨-30000, 70000, 0, 50000, -25000, -55000, -25000, 15000, 2291⟩ := by
  rw [show (5000 : ℕ) = 4900 + 100 from rfl, DistShadow.run_add, cexChunk49]
  decide

lemma cexChunk51 : DistShadow.run 5100 DistShadow.start = ⟨-46600, 53400, 50000, -7000, 6500, -48100, -23500, 15300, 2337⟩ := by
  rw [show (5100 : ℕ) = 5000 + 100 from rfl, DistShadow.run_add, cexChunk50]
  decide

lemma cexChunk52 : DistShadow.run 5200 DistShadow.start = ⟨36800, 36800, 0, 36000, -62000, -41200, -22000, 15600, 2383⟩ := by
  rw [show (5200 : ℕ) = 5100 + 100 from rfl, DistShadow.run_add, cexChunk51]
  decide

lemma cexChunk53 : DistShadow.run 5300 DistShadow.start = ⟨20200, 20200, 50000, -21000, -30500, -34300, -20500, 15900, 2429⟩ := by
  rw [show (5300 : ℕ) = 5200 + 100 from rfl, DistShadow.run_add, cexChunk52]
  decide

lemma cexChunk54 : DistShadow.run 5400 DistShadow.start = ⟨3600, 3600, 0, 22000, 1000, -27400, -19000, 16200, 2475⟩ := by
  rw [show (5400 : ℕ) = 5300 + 100 from rfl, DistShadow.run_add, cexChunk53]
  decide

lemma cexChunk55 : DistShadow.run 5500 DistShadow.start = ⟨-13000, 87000, -50000, -35000, 32500, -20500, -17500, 16500, 2520⟩ := by
  rw [show (5500 : ℕ) = 5400 + 100 from rfl, DistShadow.run_add, cexChunk54]
  decide

lemma cexChunk56 : DistShadow.run 5600 DistShadow.start = ⟨-29600, 70400, 0, 8000, -36000, -13600, -16000, 16800, 2566⟩ := by
  rw [show (5600 : ℕ) = 5500 + 100 from rfl, DistShadow.run_add, cexChunk55]
  decide

lemma cexChunk57 : DistShadow.run 5700 DistShadow.start = ⟨-46200, 53800, 50000, -49000, -4500, -6700, -14500, 17100, 2612⟩ := by
  rw [show (5700 : ℕ) = 5600 + 100 from rfl, DistShadow.run_add, cexChunk56]
  decide

lemma cexChunk58 : DistShadow.run 5800 DistShadow.start = ⟨-62800, 37200, 0, -6000, 27000, 200, -13000, 17400, 2658⟩ := by
  rw [show (5800 : ℕ) = 5700 + 100 from rfl, DistShadow.run_add, cexChunk57]
  decide

lemma cexChunk59 : DistShadow.run 5900 DistShadow.start = ⟨20600, 20600, -50000, 37000, -41500, 7100, -11500, 17700, 2704⟩ := by
  rw [show (5900 : ℕ) = 5800 + 100 from rfl, DistShadow.run_add, cexChunk58]
  decide

lemma cexChunk60 : DistShadow.run 6000 DistShadow.start = ⟨4000, 4000, 0, -20000, -10000, 14000, -10000, 18000, 2750⟩ := by
  rw [show (6000 : ℕ) = 5900 + 100 from rfl, DistShadow.run_add, cexChunk59]
  decide

lemma cexChunk61 : DistShadow.run 6100 DistShadow.start = ⟨-12600, 87400, -50000, 23000, 21500, -79100, -8500, 18300, 2795⟩ := by
  rw [show (6100 : ℕ) = 6000 + 100 from rfl, DistShadow.run_add, cexChunk60]
  decide

lemma cexChunk62 : DistShadow.run 6200 DistShadow.start = ⟨70800, 70800, 0, -34000, -47000, -72200, -7000, 18600, 2841⟩ := by
  rw [show (6200 : ℕ) = 6100 + 100 from rfl, DistShadow.run_add, cexChunk61]
  decide

lemma cexChunk63 : DistShadow.run 6300 DistShadow.start = ⟨-45800, 54200, 50000, 9000, -15500, -65300, -5500, 18900, 2887⟩ := by
  rw [show (6300 : ℕ) = 6200 + 100 from rfl, DistShadow.run_add, cexChunk62]
  decide

lemma cexChunk64 : DistShadow.run 6400 DistShadow.start = ⟨37600, 37600, 0, -48000, 16000, -58400, -4000, 19200, 2933⟩ := by
  rw [show (6400 : ℕ) = 6300 + 100 from rfl, DistShadow.run_add, cexChunk63]
  decide

lemma cexChunk65 : DistShadow.run 6500 DistShadow.start = ⟨21000, 21000, 50000, -5000, -52500, -51500, -2500, 19500, 2979⟩ := by
  rw [show (6500 : ℕ) = 6400 + 100 from rfl, DistShadow.run_add, cexChunk64]
  decide

lemma cexChunk66 : DistShadow.run 6600 DistShadow.start = ⟨4400, 4400, 0, 38000, -21000, -44600, -1000, 19800, 3025⟩ := by
  rw [show (6600 : ℕ) = 6500 + 100 from rfl, DistShadow.run_add, cexChunk65]
  decide

lemma cexChunk67 : DistShadow.run 6700 DistShadow.start = ⟨-12200, 87800, -50000, -19000, 10500, -37700, 500, 20100, 3070⟩ := by
  rw [show (6700 : ℕ) = 6600 + 100 from rfl, DistShadow.run_add, cexChunk66]
  decide

lemma cexChunk68 : DistShadow.run 6800 DistShadow.start = ⟨-28800, 71200, 0, 24000, -58000, -30800, 2000, 20400, 3116⟩ := by
  rw [show (6800 : ℕ) = 6700 + 100 from rfl, DistShadow.run_add, cexChunk67]
  decide

lemma cexChunk69 : DistShadow.run 6900 DistShadow.start = ⟨-45400, 54600, 50000, -33000, -26500, -23900, 3500, 20700, 3162⟩ := by
  rw [show (6900 : ℕ) = 6800 + 100 from rfl, DistShadow.run_add, cexChunk68]
  decide

lemma cexChunk70 : DistShadow.run 7000 DistShadow.start = ⟨-62000, 38000, 0, 10000, 5000, -17000, 5000, 21000, 3208⟩ := by
  rw [show (7000 : ℕ) = 6900 + 100 from rfl, DistShadow.run_add, cexChunk69]
  decide

lemma cexChunk71 : DistShadow.run 7100 DistShadow.start = ⟨21400, 21400, 50000, -47000, -63500, -10100, 6500, 21300, 3254⟩ := by
  rw [show (7100 : ℕ) = 7000 + 100 from rfl, DistShadow.run_add, cexChunk70]
  decide

lemma cexChunk72 : DistShadow.run 7200 DistShadow.start = ⟨4800, 4800, 0, -4000, -32000, -3200, 8000, 21600, 3300⟩ := by
  rw [show (7200 : ℕ) = 7100 + 100 from rfl, DistShadow.run_add, cexChunk71]
  decide

lemma cexChunk73 : DistShadow.run 7300 DistShadow.start = ⟨-11800, 88200, -50000, -61000, -500, 3700, 9500, 21900, 3345⟩ := by
  rw [show (7300 : ℕ) = 7200 + 100 from rfl, DistShadow.run_add, cexChunk72]
  decide

lemma cexChunk74 : DistShadow.run 7400 DistShadow.start = ⟨-28400, 71600, 0, -18000, 31000, 10600, 11000, -77800, 3391⟩ := by
  rw [show (7400 : ℕ) = 7300 + 100 from rfl, DistShadow.run_add, cexChunk73]
  decide

lemma cexChunk75 : DistShadow.run 7500 DistShadow.start = ⟨-45000, 55000, 50000, 25000, -37500, 17500, 12500, -77500, 3437⟩ := by
  rw [show (7500 : ℕ) = 7400 + 100 from rfl, DistShadow.run_add, cexChunk74]
  decide

lemma cexChunk76 : DistShadow.run 7600 DistShadow.start = ⟨38400, 38400, 0, -32000, -6000, 24400, 14000, -77200, 3483⟩ := by
  rw [show (7600 : ℕ) = 7500 + 100 from rfl, DistShadow.run_add, cexChunk75]
  decide

lemma cexChunk77 : DistShadow.run 7700 DistShadow.start = ⟨21800, 21800, -50000, 11000, 25500, 31300, 15500, -76900, 3529⟩ := by
  rw [show (7700 : ℕ) = 7600 + 100 from rfl, DistShadow.run_add, cexChunk76]
  decide

lemma cexChunk78 : DistShadow.run 7800 DistShadow.start = ⟨5200, 105200, 0, 54000, -43000, -61800, 17000, -76600, 3574⟩ := by
  rw [show (7800 : ℕ) = 7700 + 100 from rfl, DistShadow.run_add, cexChunk77]
  decide

lemma cexChunk79 : DistShadow.run 7900 DistShadow.start = ⟨-11400, 88600, 50000, -3000, -11500, -54900, 18500, -76300, 3620⟩ := by
  rw [show (7900 : ℕ) = 7800 + 100 from rfl, DistShadow.run_add, cexChunk78]
  decide

lemma cexChunk80 : DistShadow.run 8000 DistShadow.start = ⟨-28000, 72000, 0, 40000, 20000, -48000, 20000, -76000, 3666⟩ := by
  rw [show (8000 : ℕ) = 7900 + 100 from rfl, DistShadow.run_add, cexChunk79]
  decide

lemma cexChunk81 : DistShadow.run 8100 DistShadow.start = ⟨-44600, 55400, 50000, -17000, 51500, -41100, 21500, -75700, 3712⟩ := by
  rw [show (8100 : ℕ) = 8000 + 100 from rfl, DistShadow.run_add, cexChunk80]
  decide

lemma cexChunk82 : DistShadow.run 8200 DistShadow.start = ⟨38800, 38800, 0, 26000, -17000, -34200, 23000, -75400, 3758⟩ := by
  rw [show (8200 : ℕ) = 8100 + 100 from rfl, DistShadow.run_add, cexChunk81]
  decide

lemma cexChunk83 : DistShadow.run 8300 DistShadow.start = ⟨22200, 22200, 50000, -31000, 14500, -27300, 24500, -75100, 3804⟩ := by
  rw [show (8300 : ℕ) = 8200 + 100 from rfl, DistShadow.run_add, cexChunk82]
  decide

lemma cexChunk84 : DistShadow.run 8400 DistShadow.start = ⟨5600, 5600, 0, 12000, 46000, -20400, 26000, -74800, 3850⟩ := by
  rw [show (8400 : ℕ) = 8300 + 100 from rfl, DistShadow.run_add, cexChunk83]
  decide

lemma cexChunk85 : DistShadow.run 8500 DistShadow.start = ⟨-11000, 89000, 50000, -45000, -22500, -13500, 27500, -74500, 3895⟩ := by
  rw [show (8500 : ℕ) = 8400 + 100 from rfl, DistShadow.run_add, cexChunk84]
  decide

lemma cexChunk86 : DistShadow.run 8600 DistShadow.start = ⟨-27600, 72400, 0, -2000, 9000, -6600, 29000, -74200, 3941⟩ := by
  rw [show (8600 : ℕ) = 8500 + 100 from rfl, DistShadow.run_add, cexChunk85]
  decide

lemma cexChunk87 : DistShadow.run 8700 DistShadow.start = ⟨-44200, 55800, 50000, 41000, -59500, 300, 30500, -73900, 3987⟩ := by
  rw [show (8700 : ℕ) = 8600 + 100 from rfl, DistShadow.run_add, cexChunk86]
  decide

lemma cexChunk88 : DistShadow.run 8800 DistShadow.start = ⟨39200, 39200, 0, -16000, -28000, 7200, 32000, -73600, 4033⟩ := by
  rw [show (8800 : ℕ) = 8700 + 100 from rfl, DistShadow.run_add, cexChunk87]
  decide

lemma cexChunk89 : DistShadow.run 8900 DistShadow.start = ⟨22600, 22600, -50000, 27000, 3500, 14100, 33500, -73300, 4079⟩ := by
  rw [show (8900 : ℕ) = 8800 + 100 from rfl, DistShadow.run_add, cexChunk88]
  decide

lemma cexChunk90 : DistShadow.run 9000 DistShadow.start = ⟨6000, 106000, 0, -30000, 35000, 21000, -65000, -73000, 4124⟩ := by
  rw [show (9000 : ℕ) = 8900 + 100 from rfl, DistShadow.run_add, cexChunk89]
  decide

lemma cexChunk91 : DistShadow.run 9100 DistShadow.start = ⟨-10600, 89400, 50000, 13000, -33500, 27900, -63500, -72700, 4170⟩ := by
  rw [show (9100 : ℕ) = 9000 + 100 from rfl, DistShadow.run_add, cexChunk90]
  decide

lemma cexChunk92 : DistShadow.run 9200 DistShadow.start = ⟨-27200, 72800, 0, 56000, -2000, 34800, -62000, -72400, 4216⟩ := by
  rw [show (9200 : ℕ) = 9100 + 100 from rfl, DistShadow.run_add, cexChunk91]
  decide

lemma cexChunk93 : DistShadow.run 9300 DistShadow.start = ⟨-43800, 56200, 50000, -1000, 29500, 41700, -60500, -72100, 4262⟩ := by
  rw [show (9300 : ℕ) = 9200 + 100 from rfl, DistShadow.run_add, cexChunk92]
  decide

lemma cexChunk94 : DistShadow.run 9400 DistShadow.start = ⟨39600, 39600, 0, 42000, 61000, -51400, -59000, -71800, 4308⟩ := by
  rw [show (9400 : ℕ) = 9300 + 100 from rfl, DistShadow.run_add, cexChunk93]
  decide

lemma cexChunkFinal : DistShadow.run 9433 DistShadow.start = ⟨52122, 152122, 14500, -10810, -28605, -49123, -58505, -71701, 4322⟩ := by
  rw [show (9433 : ℕ) = 9400 + 33 from rfl, DistShadow.run_add, cexChunk94]
  decide

/-- C1 counterexample: for the eight-stepper ratio vector `cexRatios`
(which is nonnegative and sums to one), after `K = 9433` step requests the
count delivered to stepper `1` is `round(r[1]*K) - 2`, outside the claimed
`round(r[i]*K) ± 1` band. -/
theorem C1_counterexample :
    (∀ i, 0 ≤ cexRatios i) ∧ (∑ i, cexRatios i = 1) ∧
      ((distRun cexRatios 9433).1 1 : ℤ) = round (cexRatios 1 * (9433 : ℚ)) - 2 := by
  have hwts : ∀ i, 0 ≤ cexWts i := by decide
  refine ⟨?_, ?_, ?_⟩
  · intro i
    unfold cexRatios
    apply div_nonneg
    · exact_mod_cast hwts i
    · norm_num
  · rw [Fin.sum_univ_eight]
    show ((cexWts 0 : ℤ) : ℚ) / 100000 + ((cexWts 1 : ℤ) : ℚ) / 100000 +
      ((cexWts 2 : ℤ) : ℚ) / 100000 + ((cexWts 3 : ℤ) : ℚ) / 100000 +
      ((cexWts 4 : ℤ) : ℚ) / 100000 + ((cexWts 5 : ℤ) : ℚ) / 100000 +
      ((cexWts 6 : ℤ) : ℚ) / 100000 + ((cexWts 7 : ℤ) : ℚ) / 100000 = 1
    rw [show cexWts 0 = (45834 : ℤ) from rfl, show cexWts 1 = (45834 : ℤ) from rfl,
      show cexWts 2 = (6500 : ℤ) from rfl, show cexWts 3 = (1430 : ℤ) from rfl,
      show cexWts 4 = (315 : ℤ) from rfl, show cexWts 5 = (69 : ℤ) from rfl,
      show cexWts 6 = (15 : ℤ) from rfl, show cexWts 7 = (3 : ℤ) from rfl]
    norm_num
  · have hcount : (distRun cexRatios 9433).1 1 = 4322 := by
      rw [(run_bridge 9433).2, cexChunkFinal]
    rw [hcount]
    have hr : cexRatios 1 * (9433 : ℚ) = 432352122 / 100000 := by
      show ((cexWts 1 : ℤ) : ℚ) / 100000 * (9433 : ℚ) = _
      rw [show cexWts 1 = (45834 : ℤ) from rfl]
      norm_num
    rw [hr]
    have hround : round ((432352122 : ℚ) / 100000) = 4324 := by
      rw [round_eq]
      norm_num
    rw [hround]
    norm_num
